import Mathlib

/-!
Verification of the chunked-file (GridStore) layer and the streaming cursor of
the mongodb-legacy repository.

The definitions below are a shallow embedding of src/lib/gridfs/grid_store.js
and of the cursor in src/unnamed/part_000.  Byte buffers are modelled as
List Nat, the chunk collection as a List Chunk upserted by chunk index n, and
asynchronous callback chains as sequential state-passing functions.  The Chunk
class itself (lib/gridfs/chunk.js) is not part of the provided sources; it is
modelled from the specification, section 4.1, as indicated on each of its
operations.
-/

/-- Modelled from the spec: the Chunk leaf component (lib/gridfs/chunk.js is
not among the provided sources).  A chunk holds a zero-based sequence index n
(chunkNumber), a byte buffer (data) and an internal read/write cursor
(internalPosition, here pos) bounded by the buffer. -/
structure Chunk where
  n : Nat
  data : List Nat
  pos : Nat
deriving DecidableEq

/-- Modelled from the spec: Chunk write appends bytes at the internal cursor,
growing the buffer, and advances the cursor past the appended bytes. -/
def Chunk.write (c : Chunk) (bytes : List Nat) : Chunk :=
  { c with data := c.data.take c.pos ++ bytes, pos := c.pos + bytes.length }

/-- Modelled from the spec: Chunk readSlice returns bytes from the cursor
forward, advancing the cursor; requesting more than available yields only what
remains. -/
def Chunk.readSlice (c : Chunk) (len : Nat) : List Nat × Chunk :=
  ((c.data.drop c.pos).take (min len (c.data.length - c.pos)),
   { c with pos := c.pos + min len (c.data.length - c.pos) })

/-- In-memory state of a GridStore handle opened for writing, together with the
persisted chunk collection (store).  Mirrors the fields position, currentChunk
and uploadDate of the GridStore object in src/lib/gridfs/grid_store.js. -/
structure WriteState where
  position : Nat
  currentChunk : Chunk
  store : List Chunk
  uploadDate : Option Nat
deriving DecidableEq

/-- The while loop of writeBuffer (src/lib/gridfs/grid_store.js lines 364-375):
as long as the left-over data is at least a whole chunk, a fresh chunk with the
next index is created and filled with exactly chunkSize bytes.  Returns the
full chunks created, the last chunk number used, and the remaining data.
The extra 1 <= cs in the guard only rules out the chunkSize = 0 case, on which
the JavaScript loop would not terminate. -/
def fillChunks (cs : Nat) (prevN : Nat) (leftOver : List Nat) : List Chunk × Nat × List Nat :=
  if h : 1 ≤ cs ∧ cs ≤ leftOver.length then
    let newChunk := Chunk.write ⟨prevN + 1, [], 0⟩ (leftOver.take cs)
    let rest := fillChunks cs (prevN + 1) (leftOver.drop cs)
    (newChunk :: rest.1, rest.2.1, rest.2.2)
  else
    ([], prevN, leftOver)
termination_by leftOver.length
decreasing_by
  simp only [List.length_drop]
  omega

/-- Synchronous part of writeBuffer (src/lib/gridfs/grid_store.js lines
354-385 and 406-410) in a write mode: splits the buffer across chunk
boundaries, sets the new current chunk and advances position by the full
buffer length.  Returns the updated handle state together with the list of
chunks whose save operations are issued (chunksToWrite); the saves themselves
have not yet been applied to the store. -/
def writeBufferSyncW (cs : Nat) (s : WriteState) (buffer : List Nat) : WriteState × List Chunk :=
  if cs ≤ s.currentChunk.pos + buffer.length then
    let leftOverDataSize := cs - s.currentChunk.pos
    let firstChunkData := buffer.take leftOverDataSize
    let leftOverData := buffer.drop leftOverDataSize
    let c0 := s.currentChunk.write firstChunkData
    let r := fillChunks cs s.currentChunk.n leftOverData
    let newCurrent : Chunk :=
      if 0 < r.2.2.length then Chunk.write ⟨r.2.1 + 1, [], 0⟩ r.2.2 else ⟨r.2.1 + 1, [], 0⟩
    ({ s with position := s.position + buffer.length, currentChunk := newCurrent },
     c0 :: r.1)
  else
    ({ s with position := s.position + buffer.length,
              currentChunk := s.currentChunk.write buffer }, [])

/-- Modelled from the spec: Chunk save persists (upserts) the chunk document
keyed by (filesId, n); within one file the key is the index n. -/
def saveChunk (store : List Chunk) (c : Chunk) : List Chunk :=
  if store.any (fun x => x.n == c.n) then
    store.map (fun x => if x.n == c.n then c else x)
  else
    store ++ [c]

/-- All pending chunk saves of one write call applied to the chunk collection
(the fan-out loop of writeBuffer lines 387-405; completion order does not
matter for the resulting collection because chunks are keyed by n). -/
def applySaves (store : List Chunk) (pending : List Chunk) : List Chunk :=
  pending.foldl saveChunk store

/-- writeBuffer (src/lib/gridfs/grid_store.js lines 347-421): fails when the
mode does not start with the character w, otherwise performs the synchronous
splitting phase and returns the new state plus the chunk saves issued. -/
def writeBuffer (mode : String) (cs : Nat) (s : WriteState) (buffer : List Nat) :
    Except String (WriteState × List Chunk) :=
  if mode.front = 'w' then Except.ok (writeBufferSyncW cs s buffer)
  else Except.error "not opened for writing"

/-- One complete write call in write mode: synchronous phase followed by the
completion of every chunk save it issued. -/
def writeStepW (cs : Nat) (s : WriteState) (buffer : List Nat) : WriteState :=
  let r := writeBufferSyncW cs s buffer
  { r.1 with store := applySaves r.1.store r.2 }

/-- Handle state right after opening a new file in mode w (grid_store.js lines
197-208): current chunk is a fresh chunk 0, position 0, no uploadDate, and the
chunk collection for this file is empty (existing chunks were deleted). -/
def freshW : WriteState :=
  { position := 0, currentChunk := ⟨0, [], 0⟩, store := [], uploadDate := none }

/-- A write session: a sequence of write calls against a freshly opened
write-mode handle. -/
def runWrites (cs : Nat) (ws : List (List Nat)) : WriteState :=
  ws.foldl (writeStepW cs) freshW

/-- The metadata document built by buildMongoObject (grid_store.js lines
446-466): length is the current position, chunkSize and uploadDate are taken
from the handle.  The md5 checksum is computed server side and not modelled. -/
structure MetaDoc where
  length : Nat
  chunkSize : Nat
  uploadDate : Option Nat
deriving DecidableEq

/-- close in a write mode (grid_store.js lines 480-538): if the current chunk
has buffered bytes it is saved; uploadDate is kept when already set in that
branch, while the branch for an empty current chunk assigns a fresh
uploadDate unconditionally (line 526).  Returns the new handle state and the
saved metadata document. -/
def gsCloseW (cs : Nat) (s : WriteState) (now : Nat) : WriteState × MetaDoc :=
  if 0 < s.currentChunk.pos then
    let store2 := saveChunk s.store s.currentChunk
    let ud : Option Nat := match s.uploadDate with | some d => some d | none => some now
    ({ s with store := store2, uploadDate := ud },
     { length := s.position, chunkSize := cs, uploadDate := ud })
  else
    ({ s with uploadDate := some now },
     { length := s.position, chunkSize := cs, uploadDate := some now })

/-- close for an arbitrary mode (grid_store.js lines 477-546): write modes run
gsCloseW, read mode is a no-op callback, any other mode is an error. -/
def gsClose (mode : String) (cs : Nat) (s : WriteState) (now : Nat) :
    Except String (WriteState × Option MetaDoc) :=
  if mode.front = 'w' then
    let r := gsCloseW cs s now
    Except.ok (r.1, some r.2)
  else if mode.front = 'r' then Except.ok (s, none)
  else Except.error ("Illegal mode " ++ mode)

/-- The chunkSize property setter (grid_store.js lines 1192-1203): the stored
internalChunkSize is replaced by the assigned value only for a write-mode
handle at position 0 with no uploadDate; every other assignment silently
keeps the old value (the setter never raises). -/
def setChunkSize (mode : String) (position : Nat) (uploadDate : Option Nat)
    (internalChunkSize value : Nat) : Nat :=
  if ¬(mode.front = 'w' ∧ position = 0 ∧ uploadDate = none) then internalChunkSize
  else value

/-- Ceiling division, used to state the chunk-count properties. -/
def ceilDiv (a b : Nat) : Nat := (a + b - 1) / b

/-- nthChunk (grid_store.js lines 560-579): looks the chunk with index k up in
the chunk collection; a found document yields a chunk with cursor 0, a missing
document yields an empty chunk (the Chunk built from an empty document). -/
def nthChunk (store : List Chunk) (k : Nat) : Chunk :=
  match store.find? (fun c => c.n == k) with
  | some c => { n := c.n, data := c.data, pos := 0 }
  | none => { n := 0, data := [], pos := 0 }

/-- Largest chunk index present in the collection; termination measure for the
read recursion. -/
def maxChunkN (store : List Chunk) : Nat :=
  store.foldl (fun m c => max m c.n) 0

theorem foldl_max_init_le (store : List Chunk) :
    ∀ init : Nat, init ≤ store.foldl (fun m c => max m c.n) init := by
  induction store with
  | nil => intro init; exact Nat.le_refl _
  | cons a t ih =>
    intro init
    exact Nat.le_trans (Nat.le_max_left _ _) (ih (max init a.n))

theorem mem_le_foldl_max (store : List Chunk) (c : Chunk) (hc : c ∈ store) :
    ∀ init : Nat, c.n ≤ store.foldl (fun m x => max m x.n) init := by
  induction store with
  | nil => cases hc
  | cons a t ih =>
    intro init
    rw [List.foldl_cons]
    rcases List.mem_cons.mp hc with h | h
    · subst h
      exact Nat.le_trans (Nat.le_max_right _ _) (foldl_max_init_le t _)
    · exact ih h _

theorem le_maxChunkN (store : List Chunk) (c : Chunk) (hc : c ∈ store) :
    c.n ≤ maxChunkN store :=
  mem_le_foldl_max store c hc 0

theorem nthChunk_measure (store : List Chunk) (m : Nat)
    (h : 0 < (nthChunk store (m + 1)).data.length) :
    maxChunkN store + 1 - (nthChunk store (m + 1)).n < maxChunkN store + 1 - m := by
  cases hf : store.find? (fun c => c.n == m + 1) with
  | none =>
    have he : nthChunk store (m + 1) = ⟨0, [], 0⟩ := by unfold nthChunk; rw [hf]
    rw [he] at h
    simp at h
  | some c =>
    have he : nthChunk store (m + 1) = ⟨c.n, c.data, 0⟩ := by unfold nthChunk; rw [hf]
    have hmem : c ∈ store := List.mem_of_find?_eq_some hf
    have hn : c.n = m + 1 := by simpa using List.find?_some hf
    have hle := le_maxChunkN store c hmem
    rw [he]
    show maxChunkN store + 1 - c.n < maxChunkN store + 1 - m
    omega

/-- GridStore.prototype.read (grid_store.js lines 757-805) specialised to the
flow where the buffer was allocated by the call itself, so that the allocated
buffer length equals finalLength: acc holds the bytes copied so far
(finalBuffer up to its index).  When the current chunk can satisfy the rest of
the request the final slice is copied and the buffer is returned (or the
degenerate empty read fails); otherwise the rest of the current chunk is
copied, and the next chunk is loaded: a missing or empty next chunk either
delivers the partially filled buffer (when its index is positive) or fails
with the corruption error. -/
def gsRead (store : List Chunk) (finalLength : Nat) (cur : Chunk) (acc : List Nat) :
    Except String (List Nat) :=
  if finalLength ≤ cur.data.length - cur.pos + acc.length then
    if finalLength = 0 then Except.error "File does not exist"
    else Except.ok (acc ++ (cur.readSlice (finalLength - acc.length)).1)
  else
    if h : 0 < (nthChunk store (cur.n + 1)).data.length then
      gsRead store finalLength (nthChunk store (cur.n + 1))
        (acc ++ (cur.readSlice (cur.data.length - cur.pos)).1)
    else if 0 < (acc ++ (cur.readSlice (cur.data.length - cur.pos)).1).length then
      Except.ok (acc ++ (cur.readSlice (cur.data.length - cur.pos)).1)
    else Except.error "no chunks found for file, possibly corrupt"
termination_by maxChunkN store + 1 - cur.n
decreasing_by
  exact nthChunk_measure store cur.n h

/-- A full read through a read-mode handle: open loads chunk 0 and sets
position 0 (grid_store.js lines 190-196), read() with no length argument
reads length - position = len bytes. -/
def gsReadFull (store : List Chunk) (len : Nat) : Except String (List Nat) :=
  gsRead store len (nthChunk store 0) []

/-- Cursor states (src/unnamed/part_000 lines 315-318): INIT, OPEN, CLOSED and
the declared but unused GET_MORE. -/
inductive CState
  | init
  | opened
  | closedState
  | getMore
deriving DecidableEq

/-- The mutable query shape of the cursor (the cmd object of
src/unnamed/part_000): limit, skip, batchSize and the orderby clause (the
shape of a sort specification is irrelevant here and abstracted to Int). -/
structure CursorCmd where
  limit : Option Int
  skip : Option Int
  batchSize : Option Int
  orderby : Option Int
deriving DecidableEq

/-- Cursor.limit (src/unnamed/part_000 lines 202-209): errors on a tailable
cursor, errors when the state is OPEN or CLOSED or the cursor is dead,
otherwise records the limit on the pending command. -/
def cursorLimit (tailable : Bool) (state : CState) (dead : Bool) (cmd : CursorCmd)
    (value : Int) : Except String CursorCmd :=
  if tailable then Except.error "Tailable cursor does not support limit"
  else if state = CState.opened ∨ state = CState.closedState ∨ dead = true then
    Except.error "Cursor is closed"
  else Except.ok { cmd with limit := some value }

/-- Cursor.skip (src/unnamed/part_000 lines 211-218): same guards as limit. -/
def cursorSkip (tailable : Bool) (state : CState) (dead : Bool) (cmd : CursorCmd)
    (value : Int) : Except String CursorCmd :=
  if tailable then Except.error "Tailable cursor does not support skip"
  else if state = CState.opened ∨ state = CState.closedState ∨ dead = true then
    Except.error "Cursor is closed"
  else Except.ok { cmd with skip := some value }

/-- Cursor.batchSize (src/unnamed/part_000 lines 220-229): errors on a
tailable cursor, errors when the state is CLOSED or the cursor is dead; the
OPEN state is not rejected here, unlike limit, skip and sort. -/
def cursorBatchSize (tailable : Bool) (state : CState) (dead : Bool) (cmd : CursorCmd)
    (value : Int) : Except String CursorCmd :=
  if tailable then Except.error "Tailable cursor does not support limit"
  else if state = CState.closedState ∨ dead = true then
    Except.error "Cursor is closed"
  else Except.ok { cmd with batchSize := some value }

/-- Cursor.sort (src/unnamed/part_000 lines 231-242): errors on a tailable
cursor, errors when the state is CLOSED or OPEN or the cursor is dead,
otherwise stores the order clause. -/
def cursorSort (tailable : Bool) (state : CState) (dead : Bool) (cmd : CursorCmd)
    (value : Int) : Except String CursorCmd :=
  if tailable then Except.error "Tailable cursor does not support sorting"
  else if state = CState.closedState ∨ state = CState.opened ∨ dead = true then
    Except.error "Cursor is closed"
  else Except.ok { cmd with orderby := some value }

/-- Outcome of one underlying fetch (the self.next call of mongodb-core) as
observed by Cursor.nextObject: a tailable-retry error, a document, or any
other error. -/
inductive FetchR
  | tailableErr
  | okDoc (d : Nat)
  | otherErr
deriving DecidableEq

/-- The retry loop of Cursor.nextObject (src/unnamed/part_000 lines 66-79)
run against a queue of fetch outcomes: a tailable error with retries left
decrements the counter and tries again (after the fixed tailableRetryInterval
delay, which has no observable effect on the sequence of fetches and is not
modelled); a tailable error with an exhausted counter, or any other error,
surfaces; a document is returned. -/
def nextObjectLoop : Nat → List FetchR → Except String (Option Nat)
  | _, [] => Except.error "connection closed"
  | retries, FetchR.tailableErr :: rest =>
      if retries = 0 then Except.error "tailable retry limit reached"
      else nextObjectLoop (retries - 1) rest
  | _, FetchR.okDoc d :: _ => Except.ok (some d)
  | _, FetchR.otherErr :: _ => Except.error "fetch error"

/-- The recognized write-concern fields of an options object (grid_store.js
documentation lines 36-39 and _setWriteConcernHash): acknowledgement level w,
wtimeout, journal flags j and journal, and fsync. -/
structure WCOptions where
  w : Option Int
  wtimeout : Option Int
  j : Option Bool
  journal : Option Bool
  fsync : Option Bool
deriving DecidableEq

/-- The safe option of an options object or of the db: absent, a boolean, or
an object carrying write-concern fields. -/
inductive SafeOpt
  | absent
  | flag (b : Bool)
  | conf (o : WCOptions)
deriving DecidableEq

/-- An options object as consumed by _getWriteConcern: write-concern fields
plus an optional safe entry. -/
structure GSOptions where
  wc : WCOptions
  safe : SafeOpt
deriving DecidableEq

/-- The write-concern object assembled by _setWriteConcernHash (grid_store.js
lines 1264-1272).  The journal field is never set there (journal == true
feeds the j field), so only w, j, fsync and wtimeout can be present. -/
structure FinalWC where
  w : Option Int
  j : Option Bool
  fsync : Option Bool
  wtimeout : Option Int
deriving DecidableEq

/-- _setWriteConcernHash (grid_store.js lines 1264-1272): copies w and
wtimeout when present, sets j when journal or j is true, sets fsync when
fsync is true. -/
def setWriteConcernHash (o : WCOptions) : FinalWC :=
  { w := o.w
  , j := if o.journal = some true ∨ o.j = some true then some true else none
  , fsync := if o.fsync = some true then some true else none
  , wtimeout := o.wtimeout }

/-- The guard of the first branch of _getWriteConcern: some local
write-concern field is present. -/
def hasLocalWC (o : WCOptions) : Bool :=
  o.w.isSome || o.j.isSome || o.journal.isSome || o.fsync.isSome

/-- The parts of the db object read by _getWriteConcern: its options and its
safe configuration. -/
structure DbLike where
  options : WCOptions
  safe : SafeOpt
deriving DecidableEq

/-- The initial value of finalOptions in _getWriteConcern (line 1279). -/
def defaultWC : FinalWC := { w := some 1, j := none, fsync := none, wtimeout := none }

/-- A boolean safe value translated to an acknowledgement level (lines
1287-1288 and 1293-1294). -/
def safeBoolWC (b : Bool) : FinalWC :=
  { w := some (if b then 1 else 0), j := none, fsync := none, wtimeout := none }

/-- The cascade of branches of _getWriteConcern (grid_store.js lines
1279-1295) that picks the write-concern source: caller options, caller safe
object, caller safe boolean, db options, db safe object, db safe boolean,
default w:1. -/
def resolveWC (db : DbLike) (opts : GSOptions) : FinalWC :=
  if hasLocalWC opts.wc then setWriteConcernHash opts.wc
  else match opts.safe with
    | SafeOpt.conf o => setWriteConcernHash o
    | SafeOpt.flag b => safeBoolWC b
    | SafeOpt.absent =>
      if hasLocalWC db.options then setWriteConcernHash db.options
      else match db.safe with
        | SafeOpt.conf o => if hasLocalWC o then setWriteConcernHash o else defaultWC
        | SafeOpt.flag b => safeBoolWC b
        | SafeOpt.absent => defaultWC

/-- The invalid-combination test of _getWriteConcern (grid_store.js lines
1298-1299): an acknowledgement level below 1 combined with a journal or
fsync flag.  A missing w compares as false, as in JavaScript, and the
journal field is never present on the assembled object, so only j and fsync
are tested. -/
def wcInvalid (fo : FinalWC) : Bool :=
  (match fo.w with | some w => decide (w < 1) | none => false) &&
    (fo.j == some true || fo.fsync == some true)

/-- _getWriteConcern (grid_store.js lines 1277-1303): resolves the write
concern, then rejects an invalid combination with a thrown error. -/
def getWriteConcern (db : DbLike) (opts : GSOptions) : Except String FinalWC :=
  if wcInvalid (resolveWC db opts) then
    Except.error "No acknowledgement using w < 1 cannot be combined with journal:true or fsync:true"
  else Except.ok (resolveWC db opts)

/-- The part of a newly constructed GridStore handle relevant here. -/
structure GridStoreHandle where
  writeConcern : FinalWC
  position : Nat
deriving DecidableEq

/-- The GridStore constructor (grid_store.js lines 49-96): position starts at
0 and the write concern is resolved by _getWriteConcern at construction time
(line 93); a write-concern error aborts the construction. -/
def gridStoreNew (db : DbLike) (opts : GSOptions) : Except String GridStoreHandle :=
  match getWriteConcern db opts with
  | Except.error e => Except.error e
  | Except.ok wc => Except.ok { writeConcern := wc, position := 0 }

theorem Chunk.write_fresh (m : Nat) (bs : List Nat) :
    Chunk.write ⟨m, [], 0⟩ bs = ⟨m, bs, bs.length⟩ := by
  simp [Chunk.write]

theorem fillChunks_spec (cs : Nat) (hcs : 1 ≤ cs) (prevN : Nat) (lo : List Nat) :
    ((fillChunks cs prevN lo).1.map Chunk.data).flatten ++ (fillChunks cs prevN lo).2.2 = lo ∧
    (∀ c ∈ (fillChunks cs prevN lo).1, c.data.length = cs ∧ c.pos = cs) ∧
    (fillChunks cs prevN lo).1.map Chunk.n =
      List.range' (prevN + 1) (fillChunks cs prevN lo).1.length ∧
    (fillChunks cs prevN lo).2.1 = prevN + (fillChunks cs prevN lo).1.length ∧
    (fillChunks cs prevN lo).2.2.length < cs := by
  induction prevN, lo using fillChunks.induct cs with
  | case1 prevN lo h ih =>
    rw [fillChunks, dif_pos h]
    obtain ⟨ih1, ih2, ih3, ih4, ih5⟩ := ih
    have htake : (lo.take cs).length = cs := by
      simp [List.length_take]
      omega
    refine ⟨?_, ?_, ?_, ?_, ih5⟩
    · simp only [Chunk.write_fresh, List.map_cons, List.flatten_cons, List.append_assoc, ih1]
      exact List.take_append_drop cs lo
    · intro c hc
      rcases List.mem_cons.mp hc with rfl | hc
      · simp [Chunk.write_fresh, htake]
      · exact ih2 c hc
    · simp only [Chunk.write_fresh, List.map_cons, List.length_cons, List.range'_succ, ih3]
    · simp only [List.length_cons, ih4]
      omega
  | case2 prevN lo h =>
    rw [fillChunks, dif_neg h]
    refine ⟨by simp, by simp, by simp, by simp, ?_⟩
    show lo.length < cs
    omega

theorem flatten_length_const (cs : Nat) (L : List (List Nat)) (h : ∀ l ∈ L, l.length = cs) :
    L.flatten.length = cs * L.length := by
  induction L with
  | nil => simp
  | cons a t ih =>
    simp only [List.flatten_cons, List.length_append, List.length_cons]
    rw [h a (List.mem_cons_self a t), ih (fun l hl => h l (List.mem_cons_of_mem a hl))]
    ring

theorem saveChunk_fresh (store : List Chunk) (c : Chunk)
    (h : ∀ x ∈ store, x.n ≠ c.n) : saveChunk store c = store ++ [c] := by
  have hany : store.any (fun x => x.n == c.n) = false := by
    rw [List.any_eq_false]
    intro x hx
    simp [h x hx]
  simp [saveChunk, hany]

theorem applySaves_fresh (pending : List Chunk) : ∀ (store : List Chunk) (a : Nat),
    store.map Chunk.n = List.range a →
    pending.map Chunk.n = List.range' a pending.length →
    applySaves store pending = store ++ pending := by
  induction pending with
  | nil =>
    intro store a _ _
    simp [applySaves]
  | cons c t ih =>
    intro store a h1 h2
    simp only [List.map_cons, List.length_cons, List.range'_succ] at h2
    injection h2 with hc ht
    have hfresh : saveChunk store c = store ++ [c] := by
      apply saveChunk_fresh
      intro x hx hne
      have hxn : x.n ∈ List.range a := by
        rw [← h1]
        exact List.mem_map_of_mem Chunk.n hx
      rw [List.mem_range] at hxn
      omega
    have h1' : (store ++ [c]).map Chunk.n = List.range (a + 1) := by
      rw [List.map_append, h1, List.range_succ]
      simp [hc]
    have hrec := ih (store ++ [c]) (a + 1) h1' ht
    show applySaves (saveChunk store c) t = store ++ c :: t
    rw [hfresh, hrec]
    simp

/-- The invariant a write session maintains: all stored chunks are full and
contiguously numbered 0..k-1, the current chunk is chunk k with its cursor at
the end of its sub-chunkSize buffer, the position counts every byte written,
and the stored bytes followed by the buffered bytes are exactly the bytes
written so far. -/
structure WInv (cs : Nat) (written : List Nat) (s : WriteState) : Prop where
  storeFull : ∀ c ∈ s.store, c.data.length = cs
  storeNs : s.store.map Chunk.n = List.range s.store.length
  curN : s.currentChunk.n = s.store.length
  curPos : s.currentChunk.pos = s.currentChunk.data.length
  curLt : s.currentChunk.data.length < cs
  posEq : s.position = cs * s.store.length + s.currentChunk.data.length
  content : (s.store.map Chunk.data).flatten ++ s.currentChunk.data = written

theorem winv_fresh (cs : Nat) (hcs : 1 ≤ cs) : WInv cs [] freshW := by
  refine ⟨?_, ?_, ?_, ?_, ?_, ?_, ?_⟩ <;> simp [freshW] <;> omega

theorem winv_step (cs : Nat) (hcs : 1 ≤ cs) (w : List Nat) (s : WriteState) (b : List Nat)
    (hs : WInv cs w s) : WInv cs (w ++ b) (writeStepW cs s b) := by
  obtain ⟨hFull, hNs, hN, hPos, hLt, hPosEq, hContent⟩ := hs
  unfold writeStepW writeBufferSyncW
  by_cases hov : cs ≤ s.currentChunk.pos + b.length
  · rw [if_pos hov]
    simp only
    set cur := s.currentChunk with hcur
    set k := s.store.length with hk
    set dl := cur.data.length with hdl
    have hposdl : cur.pos = dl := hPos
    set first := b.take (cs - cur.pos) with hfirst
    set lo := b.drop (cs - cur.pos) with hlo
    have hfirstlen : first.length = cs - dl := by
      rw [hfirst, List.length_take, hposdl]
      omega
    set r := fillChunks cs cur.n lo with hr
    obtain ⟨f1, f2, f3, f4, f5⟩ := fillChunks_spec cs hcs cur.n lo
    rw [← hr] at f1 f2 f3 f4 f5
    set q := r.1.length with hq
    -- the chunk written out first
    have hc0data : (cur.write first).data = cur.data ++ first := by
      simp only [Chunk.write, hposdl, hdl, List.take_length]
    have hc0len : (cur.write first).data.length = cs := by
      rw [hc0data, List.length_append, hfirstlen]
      omega
    have hc0pos : (cur.write first).pos = cs := by
      simp only [Chunk.write, hposdl, hfirstlen]
      omega
    have hc0n : (cur.write first).n = cur.n := rfl
    -- the new current chunk in either branch
    have hnewcur : (if 0 < r.2.2.length then Chunk.write ⟨r.2.1 + 1, [], 0⟩ r.2.2
        else (⟨r.2.1 + 1, [], 0⟩ : Chunk)) = ⟨r.2.1 + 1, r.2.2, r.2.2.length⟩ := by
      by_cases hrem : 0 < r.2.2.length
      · rw [if_pos hrem, Chunk.write_fresh]
      · rw [if_neg hrem]
        have : r.2.2 = [] := List.eq_nil_of_length_eq_zero (by omega)
        rw [this]
        rfl
    rw [hnewcur]
    -- the pending chunk numbers
    have hpendNs : ((cur.write first) :: r.1).map Chunk.n = List.range' k (q + 1) := by
      rw [List.map_cons, hc0n, hN, f3, ← hN, List.range'_succ, hq]
    have hstore : applySaves s.store ((cur.write first) :: r.1) =
        s.store ++ (cur.write first) :: r.1 := by
      apply applySaves_fresh _ _ k hNs
      rw [hpendNs]
      simp
    rw [hstore]
    -- length of the flattened full chunks
    have hfl : (r.1.map Chunk.data).flatten.length = cs * q := by
      rw [flatten_length_const cs _ ?_, List.length_map, hq]
      intro l hl
      rw [List.mem_map] at hl
      obtain ⟨c, hc, rfl⟩ := hl
      exact (f2 c hc).1
    have hblen : b.length = (cs - dl) + (cs * q + r.2.2.length) := by
      have hsplit : first ++ lo = b := List.take_append_drop _ b
      have h1 : lo.length = cs * q + r.2.2.length := by
        have := congrArg List.length f1
        rw [List.length_append, hfl] at this
        omega
      have := congrArg List.length hsplit
      rw [List.length_append, hfirstlen, h1] at this
      omega
    constructor
    · -- storeFull
      intro c hc
      rcases List.mem_append.mp hc with hc | hc
      · exact hFull c hc
      · rcases List.mem_cons.mp hc with rfl | hc
        · exact hc0len
        · exact (f2 c hc).1
    · -- storeNs
      rw [List.map_append, hNs, hpendNs, List.length_append, List.length_cons, ← hq, ← hk]
      rw [List.range_eq_range', List.range_eq_range']
      have := List.range'_append 0 k (q + 1) 1
      simp only [Nat.one_mul, Nat.zero_add] at this
      rw [this]
      congr 1
      omega
    · -- curN
      show r.2.1 + 1 = _
      rw [f4, hN, List.length_append, List.length_cons]
      omega
    · -- curPos
      rfl
    · -- curLt
      exact f5
    · -- posEq
      show s.position + b.length = cs * (s.store ++ (cur.write first) :: r.1).length + r.2.2.length
      rw [List.length_append, List.length_cons]
      have hexp : cs * (k + (q + 1)) = cs * k + cs * q + cs := by ring
      rw [← hk, ← hq, hexp]
      omega
    · -- content
      show ((s.store ++ (cur.write first) :: r.1).map Chunk.data).flatten ++ r.2.2 = w ++ b
      rw [List.map_append, List.flatten_append, List.map_cons, List.flatten_cons, hc0data]
      have hsplit : first ++ lo = b := List.take_append_drop _ b
      calc ((s.store.map Chunk.data).flatten) ++ ((cur.data ++ first) ++ ((r.1.map Chunk.data).flatten)) ++ r.2.2
          = (s.store.map Chunk.data).flatten ++ cur.data ++ (first ++ ((r.1.map Chunk.data).flatten ++ r.2.2)) := by
            simp [List.append_assoc]
        _ = w ++ b := by rw [f1, hContent, hsplit]
  · rw [if_neg hov]
    simp only [applySaves, List.foldl_nil]
    have hdata : (s.currentChunk.write b).data = s.currentChunk.data ++ b := by
      simp only [Chunk.write, hPos, List.take_length]
    refine ⟨hFull, hNs, hN, ?_, ?_, ?_, ?_⟩
    · show s.currentChunk.pos + b.length = _
      rw [hdata, List.length_append, hPos]
    · rw [hdata, List.length_append]
      omega
    · rw [hdata, List.length_append]
      show s.position + b.length = cs * s.store.length + (s.currentChunk.data.length + b.length)
      omega
    · rw [hdata, ← List.append_assoc, hContent]

theorem winv_runWrites (cs : Nat) (hcs : 1 ≤ cs) (ws : List (List Nat)) :
    WInv cs ws.flatten (runWrites cs ws) := by
  have main : ∀ (l : List (List Nat)) (s : WriteState) (w : List Nat), WInv cs w s →
      WInv cs (w ++ l.flatten) (l.foldl (writeStepW cs) s) := by
    intro l
    induction l with
    | nil =>
      intro s w h
      simpa using h
    | cons b t ih =>
      intro s w h
      have := ih (writeStepW cs s b) (w ++ b) (winv_step cs hcs w s b h)
      simpa [List.append_assoc] using this
  simpa using main ws freshW [] (winv_fresh cs hcs)

theorem gsCloseW_store_inv (cs : Nat) (w : List Nat) (t : Nat) (s : WriteState)
    (h : WInv cs w s) :
    (gsCloseW cs s t).1.store =
      if s.currentChunk.data = [] then s.store else s.store ++ [s.currentChunk] := by
  unfold gsCloseW
  by_cases hd : s.currentChunk.data = []
  · have hpos : ¬ 0 < s.currentChunk.pos := by
      rw [h.curPos, hd]
      simp
    rw [if_neg hpos, if_pos hd]
  · have hpos : 0 < s.currentChunk.pos := by
      rw [h.curPos]
      have hne : s.currentChunk.data.length ≠ 0 := by
        intro h0
        exact hd (List.eq_nil_of_length_eq_zero h0)
      omega
    rw [if_pos hpos, if_neg hd]
    show saveChunk s.store s.currentChunk = _
    apply saveChunk_fresh
    intro x hx
    have hxn : x.n ∈ List.range s.store.length := by
      rw [← h.storeNs]
      exact List.mem_map_of_mem Chunk.n hx
    rw [List.mem_range] at hxn
    rw [h.curN]
    omega

theorem ceilDiv_mul_add (cs k d : Nat) (hcs : 1 ≤ cs) (hd : d < cs) :
    ceilDiv (cs * k + d) cs = k + if d = 0 then 0 else 1 := by
  unfold ceilDiv
  by_cases h0 : d = 0
  · subst h0
    rw [if_pos rfl]
    have heq : cs * k + 0 + cs - 1 = cs * k + (cs - 1) := by omega
    rw [heq, Nat.mul_add_div (by omega), Nat.div_eq_of_lt (by omega)]
  · rw [if_neg h0]
    have hexp : cs * (k + 1) = cs * k + cs := by ring
    have heq : cs * k + d + cs - 1 = cs * (k + 1) + (d - 1) := by omega
    rw [heq, Nat.mul_add_div (by omega), Nat.div_eq_of_lt (by omega)]

/-- What a successful close of a write session guarantees about the persisted
chunk collection. -/
structure ClosedStoreSpec (cs : Nat) (P : List Nat) (store : List Chunk) : Prop where
  content : (store.map Chunk.data).flatten = P
  ns : store.map Chunk.n = List.range store.length
  notLastFull : ∀ c ∈ store.dropLast, c.data.length = cs
  nonempty : ∀ c ∈ store, c.data ≠ []
  count : store.length = ceilDiv P.length cs

theorem closed_session_spec (cs : Nat) (hcs : 1 ≤ cs) (ws : List (List Nat)) (t : Nat) :
    ClosedStoreSpec cs ws.flatten (gsCloseW cs (runWrites cs ws) t).1.store ∧
    (gsCloseW cs (runWrites cs ws) t).2.length = ws.flatten.length := by
  set s := runWrites cs ws with hs
  have hinv := winv_runWrites cs hcs ws
  rw [← hs] at hinv
  have hstore := gsCloseW_store_inv cs ws.flatten t s hinv
  obtain ⟨hFull, hNs, hN, hPos, hLt, hPosEq, hContent⟩ := hinv
  have hmapfull : ∀ l ∈ s.store.map Chunk.data, l.length = cs := by
    intro l hl
    rw [List.mem_map] at hl
    obtain ⟨c, hc, rfl⟩ := hl
    exact hFull c hc
  have hLen : ws.flatten.length = cs * s.store.length + s.currentChunk.data.length := by
    have hcl := congrArg List.length hContent
    rw [List.length_append, flatten_length_const cs _ hmapfull, List.length_map] at hcl
    omega
  have hmeta : (gsCloseW cs s t).2.length = s.position := by
    unfold gsCloseW
    by_cases hp : 0 < s.currentChunk.pos
    · rw [if_pos hp]
    · rw [if_neg hp]
  refine ⟨?_, ?_⟩
  swap
  · rw [hmeta, hPosEq, hLen]
  rw [hstore]
  by_cases hd : s.currentChunk.data = []
  · rw [if_pos hd]
    refine ⟨?_, hNs, ?_, ?_, ?_⟩
    · rw [hd] at hContent
      simpa using hContent
    · intro c hc
      exact hFull c ((List.dropLast_sublist s.store).subset hc)
    · intro c hc h0
      have := hFull c hc
      rw [h0] at this
      simp at this
      omega
    · rw [hLen, hd]
      simp only [List.length_nil, Nat.add_zero]
      have hcd := ceilDiv_mul_add cs s.store.length 0 hcs (by omega)
      simpa using hcd.symm
  · rw [if_neg hd]
    have hdlpos : 0 < s.currentChunk.data.length := by
      rcases Nat.eq_zero_or_pos s.currentChunk.data.length with h0 | h0
      · exact absurd (List.eq_nil_of_length_eq_zero h0) hd
      · exact h0
    refine ⟨?_, ?_, ?_, ?_, ?_⟩
    · rw [List.map_append, List.flatten_append]
      simpa using hContent
    · rw [List.map_append, hNs]
      simp [hN, List.range_succ]
    · rw [List.dropLast_concat]
      exact hFull
    · intro c hc
      rcases List.mem_append.mp hc with hc | hc
      · intro h0
        have := hFull c hc
        rw [h0] at this
        simp at this
        omega
      · rcases List.mem_cons.mp hc with rfl | hc
        · exact hd
        · cases hc
    · rw [List.length_append, List.length_cons, List.length_nil, hLen,
        ceilDiv_mul_add cs s.store.length _ hcs hLt, if_neg (by omega)]

theorem fullBut_of_spec (cs : Nat) (P : List Nat) (store : List Chunk)
    (h : ClosedStoreSpec cs P store) (i : Nat) (hi : i + 1 < store.length) :
    (store[i]).data.length = cs := by
  apply h.notLastFull
  have hlt : i < store.dropLast.length := by
    rw [List.length_dropLast]
    omega
  have hg := List.getElem_dropLast store i hlt
  rw [← hg]
  exact List.getElem_mem hlt

theorem find_n_range' (store : List Chunk) : ∀ (a : Nat),
    store.map Chunk.n = List.range' a store.length →
    ∀ i : Nat, store.find? (fun c => c.n == i) =
      if a ≤ i ∧ i < a + store.length then store[i - a]? else none := by
  induction store with
  | nil =>
    intro a _ i
    rw [if_neg (by simp only [List.length_nil]; omega)]
    rfl
  | cons c t ih =>
    intro a h i
    simp only [List.map_cons, List.length_cons] at h
    rw [List.range'_succ] at h
    injection h with hc ht
    by_cases hia : i = a
    · subst hia
      rw [List.find?_cons_of_pos _ (by simp [hc])]
      rw [if_pos (by simp only [List.length_cons]; omega)]
      have hz : i - i = 0 := by omega
      rw [hz]
      simp
    · rw [List.find?_cons_of_neg _ (by simp [hc]; omega)]
      rw [ih (a + 1) ht i]
      simp only [List.length_cons]
      by_cases hcond : a + 1 ≤ i ∧ i < a + 1 + t.length
      · rw [if_pos hcond, if_pos (by omega)]
        have hsub : i - a = (i - (a + 1)) + 1 := by omega
        rw [hsub, List.getElem?_cons_succ]
      · rw [if_neg hcond, if_neg (by omega)]

theorem nthChunk_getElem (store : List Chunk)
    (hns : store.map Chunk.n = List.range store.length)
    (i : Nat) (hi : i < store.length) :
    nthChunk store i = ⟨i, (store[i]).data, 0⟩ := by
  have hrng : store.map Chunk.n = List.range' 0 store.length := by
    rw [hns, List.range_eq_range']
  have hfind := find_n_range' store 0 hrng i
  rw [if_pos (by omega)] at hfind
  have hsub : i - 0 = i := by omega
  rw [hsub, List.getElem?_eq_getElem hi] at hfind
  have hni : (store[i]).n = i := by
    have h1 : (store.map Chunk.n)[i]? = some (store[i]).n := by
      simp [List.getElem?_map, List.getElem?_eq_getElem hi]
    rw [hns, List.getElem?_eq_getElem (by simpa using hi), List.getElem_range] at h1
    injection h1 with h1
    exact h1.symm
  unfold nthChunk
  rw [hfind]
  show (⟨(store[i]).n, (store[i]).data, 0⟩ : Chunk) = _
  rw [hni]

theorem nthChunk_missing (store : List Chunk)
    (hns : store.map Chunk.n = List.range store.length)
    (i : Nat) (hi : store.length ≤ i) :
    nthChunk store i = ⟨0, [], 0⟩ := by
  have hrng : store.map Chunk.n = List.range' 0 store.length := by
    rw [hns, List.range_eq_range']
  have hfind := find_n_range' store 0 hrng i
  rw [if_neg (by omega)] at hfind
  unfold nthChunk
  rw [hfind]

theorem gsRead_step_terminal (store : List Chunk) (L : Nat) (cur : Chunk) (acc : List Nat)
    (h : L ≤ cur.data.length - cur.pos + acc.length) (hL : L ≠ 0) :
    gsRead store L cur acc = Except.ok (acc ++ (cur.readSlice (L - acc.length)).1) := by
  rw [gsRead, if_pos h, if_neg hL]

theorem gsRead_step_next (store : List Chunk) (L : Nat) (cur : Chunk) (acc : List Nat)
    (h : ¬ L ≤ cur.data.length - cur.pos + acc.length)
    (hnext : 0 < (nthChunk store (cur.n + 1)).data.length) :
    gsRead store L cur acc =
      gsRead store L (nthChunk store (cur.n + 1))
        (acc ++ (cur.readSlice (cur.data.length - cur.pos)).1) := by
  rw [gsRead, if_neg h, dif_pos hnext]

theorem gsRead_step_stop (store : List Chunk) (L : Nat) (cur : Chunk) (acc : List Nat)
    (h : ¬ L ≤ cur.data.length - cur.pos + acc.length)
    (hnext : ¬ 0 < (nthChunk store (cur.n + 1)).data.length) :
    gsRead store L cur acc =
      if 0 < (acc ++ (cur.readSlice (cur.data.length - cur.pos)).1).length then
        Except.ok (acc ++ (cur.readSlice (cur.data.length - cur.pos)).1)
      else Except.error "no chunks found for file, possibly corrupt" := by
  rw [gsRead, if_neg h, dif_neg hnext]

theorem readSlice_all (d : List Nat) (i : Nat) :
    ((⟨i, d, 0⟩ : Chunk).readSlice (d.length - 0)).1 = d := by
  unfold Chunk.readSlice
  simp

theorem take_flatten_length (cs : Nat) (store : List Chunk)
    (hfull : ∀ (m : Nat) (hm : m + 1 < store.length), (store[m]).data.length = cs)
    (i : Nat) (hi : i < store.length) :
    (((store.take i).map Chunk.data).flatten).length = cs * i := by
  rw [flatten_length_const cs]
  · rw [List.length_map, List.length_take]
    congr 1
    omega
  · intro l hl
    rw [List.mem_map] at hl
    obtain ⟨c, hc, rfl⟩ := hl
    rw [List.mem_iff_getElem] at hc
    obtain ⟨m, hm, rfl⟩ := hc
    rw [List.getElem_take]
    apply hfull
    rw [List.length_take] at hm
    omega

theorem flatten_take_succ (D : List (List Nat)) (i : Nat) (hi : i < D.length) :
    (D.take (i + 1)).flatten = (D.take i).flatten ++ D[i] := by
  rw [List.take_succ, List.getElem?_eq_getElem hi]
  rw [show (some (D[i])).toList = [D[i]] from rfl]
  rw [List.flatten_append]
  rw [List.flatten_cons, List.flatten_nil, List.append_nil]

theorem gsRead_ok_aux (cs : Nat) (store : List Chunk) (P : List Nat)
    (hns : store.map Chunk.n = List.range store.length)
    (hfull : ∀ (m : Nat) (hm : m + 1 < store.length), (store[m]).data.length = cs)
    (hne : ∀ c ∈ store, c.data ≠ [])
    (hP : (store.map Chunk.data).flatten = P) :
    ∀ (j i : Nat) (hij : i + j + 1 = store.length),
      gsRead store P.length ⟨i, (store[i]).data, 0⟩
        (((store.take i).map Chunk.data).flatten) = Except.ok P := by
  intro j
  induction j with
  | zero =>
    intro i hij
    have hi : i < store.length := by omega
    have hdpos : 0 < (store[i]).data.length :=
      List.length_pos.mpr (hne _ (List.getElem_mem hi))
    have hacc : (((store.take i).map Chunk.data).flatten).length = cs * i :=
      take_flatten_length cs store hfull i hi
    have hsplit : store = store.take i ++ [store[i]] := by
      conv_lhs => rw [← List.take_append_drop i store]
      congr 1
      rw [List.drop_eq_getElem_cons hi, List.drop_eq_nil_of_le (by omega)]
    have hPsplit : (((store.take i).map Chunk.data).flatten) ++ (store[i]).data = P := by
      rw [← hP]
      conv_rhs => rw [hsplit]
      rw [List.map_append, List.flatten_append]
      simp
    have hLval : P.length = cs * i + (store[i]).data.length := by
      have hc := congrArg List.length hPsplit
      rw [List.length_append, hacc] at hc
      omega
    rw [gsRead_step_terminal store P.length _ _
      (show P.length ≤ (store[i]).data.length - 0 +
        (((store.take i).map Chunk.data).flatten).length by omega)
      (by omega)]
    congr 1
    show (((store.take i).map Chunk.data).flatten) ++
      ((⟨i, (store[i]).data, 0⟩ : Chunk).readSlice
        (P.length - (((store.take i).map Chunk.data).flatten).length)).1 = P
    unfold Chunk.readSlice
    simp only [Nat.sub_zero, List.drop_zero]
    have hmin : min (P.length - (((store.take i).map Chunk.data).flatten).length)
        (store[i]).data.length = (store[i]).data.length := by omega
    rw [hmin, List.take_length]
    exact hPsplit
  | succ j ih =>
    intro i hij
    have hi : i < store.length := by omega
    have hi1 : i + 1 < store.length := by omega
    have hdcs : (store[i]).data.length = cs := hfull i hi1
    have hacc : (((store.take i).map Chunk.data).flatten).length = cs * i :=
      take_flatten_length cs store hfull i hi
    have hacc1 : (((store.take (i + 1)).map Chunk.data).flatten).length = cs * (i + 1) :=
      take_flatten_length cs store hfull (i + 1) hi1
    have hd1pos : 0 < (store[i + 1]).data.length :=
      List.length_pos.mpr (hne _ (List.getElem_mem hi1))
    have hsplit2 : store = store.take (i + 1) ++ (store[i + 1]) :: store.drop (i + 2) := by
      conv_lhs => rw [← List.take_append_drop (i + 1) store]
      congr 1
      exact List.drop_eq_getElem_cons hi1
    have hLge : cs * (i + 1) + 1 ≤ P.length := by
      have hfl := congrArg (fun l => ((l.map Chunk.data).flatten : List Nat).length) hsplit2
      simp only [List.map_append, List.flatten_append, List.length_append, List.map_cons,
        List.flatten_cons, hP] at hfl
      omega
    have hexp : cs * (i + 1) = cs * i + cs := by ring
    have hcond : ¬ P.length ≤ (store[i]).data.length - 0 +
        (((store.take i).map Chunk.data).flatten).length := by omega
    have hnext_eq : nthChunk store (i + 1) = ⟨i + 1, (store[i + 1]).data, 0⟩ :=
      nthChunk_getElem store hns (i + 1) hi1
    have hnext : 0 < (nthChunk store (i + 1)).data.length := by
      rw [hnext_eq]
      exact hd1pos
    rw [gsRead_step_next store P.length _ _ hcond hnext]
    rw [hnext_eq]
    show gsRead store P.length ⟨i + 1, (store[i + 1]).data, 0⟩
        ((((store.take i).map Chunk.data).flatten) ++
          ((⟨i, (store[i]).data, 0⟩ : Chunk).readSlice ((store[i]).data.length - 0)).1) =
      Except.ok P
    rw [readSlice_all]
    have hacc2 : (((store.take i).map Chunk.data).flatten) ++ (store[i]).data =
        (((store.take (i + 1)).map Chunk.data).flatten) := by
      rw [List.map_take, List.map_take,
        flatten_take_succ (store.map Chunk.data) i (by rw [List.length_map]; exact hi)]
      congr 1
      exact (List.getElem_map Chunk.data).symm
    rw [hacc2]
    exact ih (i + 1) (by omega)

theorem gsReadFull_ok (cs : Nat) (store : List Chunk) (P : List Nat)
    (hspec : ClosedStoreSpec cs P store) (hP1 : 1 ≤ P.length) :
    gsReadFull store P.length = Except.ok P := by
  have hnil : store ≠ [] := by
    intro h0
    have hc := hspec.content
    rw [h0] at hc
    simp at hc
    rw [hc] at hP1
    simp at hP1
  have hlen : 0 < store.length := List.length_pos.mpr hnil
  have hfull : ∀ (m : Nat) (hm : m + 1 < store.length), (store[m]).data.length = cs :=
    fun m hm => fullBut_of_spec cs P store hspec m hm
  unfold gsReadFull
  rw [nthChunk_getElem store hspec.ns 0 hlen]
  exact gsRead_ok_aux cs store P hspec.ns hfull hspec.nonempty hspec.content
    (store.length - 1) 0 (by omega)

/-- C3: every write call in a write mode advances position by exactly the
byte count of the data, and does so in the synchronous phase, before any of
the chunk saves issued by that write has been applied to the chunk
collection (the returned state still carries the untouched store, with the
pending saves listed separately). -/
theorem c3_position_advances_before_saves (mode : String) (cs : Nat) (s : WriteState)
    (b : List Nat) (hmode : mode.front = 'w') :
    ∃ r, writeBuffer mode cs s b = Except.ok r ∧
      r.1.position = s.position + b.length ∧ r.1.store = s.store := by
  refine ⟨writeBufferSyncW cs s b, ?_, ?_, ?_⟩
  · unfold writeBuffer
    rw [if_pos hmode]
  · unfold writeBufferSyncW
    by_cases h : cs ≤ s.currentChunk.pos + b.length
    · rw [if_pos h]
    · rw [if_neg h]
  · unfold writeBufferSyncW
    by_cases h : cs ≤ s.currentChunk.pos + b.length
    · rw [if_pos h]
    · rw [if_neg h]

/-- Witness for C3 at a concrete input. -/
theorem c3_witness :
    ∃ r, writeBuffer "w" 4 freshW [1, 2, 3] = Except.ok r ∧
      r.1.position = freshW.position + [1, 2, 3].length ∧ r.1.store = freshW.store :=
  c3_position_advances_before_saves "w" 4 freshW [1, 2, 3] rfl

/-- C6: an assignment to the chunkSize property is ignored unless the handle
is in a write mode at position 0 with no uploadDate, in which case the new
value is stored; no assignment ever errors (the setter is a total
function). -/
theorem c6_chunkSize_write_once (mode : String) (position : Nat) (uploadDate : Option Nat)
    (cur value : Nat) :
    ((position ≠ 0 ∨ uploadDate ≠ none ∨ mode.front ≠ 'w') →
      setChunkSize mode position uploadDate cur value = cur) ∧
    (mode.front = 'w' → position = 0 → uploadDate = none →
      setChunkSize mode position uploadDate cur value = value) := by
  unfold setChunkSize
  constructor
  · intro h
    have hcond : ¬(mode.front = 'w' ∧ position = 0 ∧ uploadDate = none) := by tauto
    rw [if_pos hcond]
  · intro h1 h2 h3
    rw [if_neg (not_not_intro ⟨h1, h2, h3⟩)]

/-- Witness for C6 at concrete inputs: ignored after a byte was positioned,
applied on a fresh write handle. -/
theorem c6_witness :
    setChunkSize "w" 5 none 256 512 = 256 ∧ setChunkSize "w" 0 none 256 512 = 512 :=
  ⟨(c6_chunkSize_write_once "w" 5 none 256 512).1 (Or.inl (by decide)),
   (c6_chunkSize_write_once "w" 0 none 256 512).2 rfl rfl rfl⟩

/-- C10: after a completed write the current chunk's cursor is strictly below
chunkSize, and a write whose data exactly fills the current chunk leaves a
fresh empty chunk as the new current chunk. -/
theorem c10_current_chunk_below_chunkSize (cs : Nat) (s : WriteState) (b : List Nat)
    (hcs : 1 ≤ cs) :
    (writeStepW cs s b).currentChunk.pos < cs ∧
    (s.currentChunk.pos + b.length = cs →
      (writeStepW cs s b).currentChunk.data = [] ∧
      (writeStepW cs s b).currentChunk.pos = 0) := by
  have hcc : (writeStepW cs s b).currentChunk = (writeBufferSyncW cs s b).1.currentChunk := rfl
  rw [hcc]
  unfold writeBufferSyncW
  by_cases hov : cs ≤ s.currentChunk.pos + b.length
  · rw [if_pos hov]
    set r := fillChunks cs s.currentChunk.n (b.drop (cs - s.currentChunk.pos)) with hr
    obtain ⟨f1, f2, f3, f4, f5⟩ :=
      fillChunks_spec cs hcs s.currentChunk.n (b.drop (cs - s.currentChunk.pos))
    rw [← hr] at f1 f2 f3 f4 f5
    have hnewcur : (if 0 < r.2.2.length then Chunk.write ⟨r.2.1 + 1, [], 0⟩ r.2.2
        else (⟨r.2.1 + 1, [], 0⟩ : Chunk)) = ⟨r.2.1 + 1, r.2.2, r.2.2.length⟩ := by
      by_cases hrem : 0 < r.2.2.length
      · rw [if_pos hrem, Chunk.write_fresh]
      · rw [if_neg hrem]
        have hemp : r.2.2 = [] := List.eq_nil_of_length_eq_zero (by omega)
        rw [hemp]
        rfl
    constructor
    · show (if 0 < r.2.2.length then Chunk.write ⟨r.2.1 + 1, [], 0⟩ r.2.2
        else (⟨r.2.1 + 1, [], 0⟩ : Chunk)).pos < cs
      rw [hnewcur]
      exact f5
    · intro hfill
      have hlo : b.drop (cs - s.currentChunk.pos) = [] := by
        apply List.eq_nil_of_length_eq_zero
        rw [List.length_drop]
        omega
      have hre : r.2.2 = [] := by
        rw [hr, hlo, fillChunks, dif_neg (by simp only [List.length_nil]; omega)]
      constructor
      · show (if 0 < r.2.2.length then Chunk.write ⟨r.2.1 + 1, [], 0⟩ r.2.2
          else (⟨r.2.1 + 1, [], 0⟩ : Chunk)).data = []
        rw [hnewcur, hre]
      · show (if 0 < r.2.2.length then Chunk.write ⟨r.2.1 + 1, [], 0⟩ r.2.2
          else (⟨r.2.1 + 1, [], 0⟩ : Chunk)).pos = 0
        rw [hnewcur, hre]
        rfl
  · rw [if_neg hov]
    constructor
    · show s.currentChunk.pos + b.length < cs
      omega
    · intro hfill
      exact absurd hfill (by omega)

/-- Witness for C10: a write exactly filling chunk 0 rolls over to a fresh
empty current chunk. -/
theorem c10_witness :
    (writeStepW 4 freshW [1, 2, 3, 4]).currentChunk.pos < 4 ∧
    (freshW.currentChunk.pos + [1, 2, 3, 4].length = 4 →
      (writeStepW 4 freshW [1, 2, 3, 4]).currentChunk.data = [] ∧
      (writeStepW 4 freshW [1, 2, 3, 4]).currentChunk.pos = 0) :=
  c10_current_chunk_below_chunkSize 4 freshW [1, 2, 3, 4] (by decide)

/-- C5 counterexample: a handle closed once (uploadDate assigned at the first
close) whose current chunk holds no buffered bytes gets a fresh uploadDate on
the second close, so a subsequent close does alter uploadDate. -/
theorem c5_counterexample :
    (gsCloseW 255 freshW 1).1.uploadDate = some 1 ∧
    (gsCloseW 255 (gsCloseW 255 freshW 1).1 2).1.uploadDate ≠
      (gsCloseW 255 freshW 1).1.uploadDate := by
  constructor
  · rfl
  · decide

/-- C5 amended: a subsequent close leaves uploadDate unchanged provided the
current chunk holds buffered bytes (position above 0) at that close; the
metadata document saved by that close carries the same unchanged
uploadDate.  (When the current chunk is empty, close reassigns uploadDate
unconditionally, per the counterexample.) -/
theorem c5_uploadDate_preserved_when_buffered (cs : Nat) (s : WriteState) (d t : Nat)
    (h1 : s.uploadDate = some d) (h2 : 0 < s.currentChunk.pos) :
    (gsCloseW cs s t).1.uploadDate = some d ∧
    (gsCloseW cs s t).2.uploadDate = some d := by
  unfold gsCloseW
  rw [if_pos h2, h1]
  exact ⟨rfl, rfl⟩

/-- Witness for the amended C5. -/
theorem c5_witness :
    (gsCloseW 255 ⟨3, ⟨0, [9], 1⟩, [], some 5⟩ 8).1.uploadDate = some 5 ∧
    (gsCloseW 255 ⟨3, ⟨0, [9], 1⟩, [], some 5⟩ 8).2.uploadDate = some 5 :=
  c5_uploadDate_preserved_when_buffered 255 ⟨3, ⟨0, [9], 1⟩, [], some 5⟩ 5 8 rfl (by decide)

/-- C1 counterexample: the empty payload written through a write-mode handle
and closed reads back as the File-does-not-exist error, not as the empty byte
sequence, for chunkSize 1. -/
theorem c1_counterexample :
    gsReadFull (gsCloseW 1 (runWrites 1 [[]]) 0).1.store
        (gsCloseW 1 (runWrites 1 [[]]) 0).2.length = Except.error "File does not exist" ∧
    gsReadFull (gsCloseW 1 (runWrites 1 [[]]) 0).1.store
        (gsCloseW 1 (runWrites 1 [[]]) 0).2.length ≠ Except.ok ([] : List Nat) := by
  have h : gsReadFull (gsCloseW 1 (runWrites 1 [[]]) 0).1.store
      (gsCloseW 1 (runWrites 1 [[]]) 0).2.length = Except.error "File does not exist" := by
    simp [gsReadFull, gsRead, nthChunk, runWrites, writeStepW, writeBufferSyncW, applySaves,
      gsCloseW, freshW, Chunk.write]
  refine ⟨h, ?_⟩
  rw [h]
  intro hc
  cases hc

/-- C1 amended: for every chunkSize at least 1 and every write session whose
total payload is nonempty, closing the session and reading the file back in
full through a read-mode handle returns exactly the bytes written. -/
theorem c1_write_read_round_trip (cs : Nat) (ws : List (List Nat)) (t : Nat)
    (hcs : 1 ≤ cs) (hlen : 1 ≤ ws.flatten.length) :
    gsReadFull (gsCloseW cs (runWrites cs ws) t).1.store
      (gsCloseW cs (runWrites cs ws) t).2.length = Except.ok ws.flatten := by
  obtain ⟨hspec, hmeta⟩ := closed_session_spec cs hcs ws t
  rw [hmeta]
  exact gsReadFull_ok cs _ _ hspec hlen

/-- Witness for the amended C1: the 11-byte scenario payload with
chunkSize 4 round-trips. -/
theorem c1_witness :
    gsReadFull
        (gsCloseW 4 (runWrites 4 [[104, 101, 108, 108, 111, 32, 119, 111, 114, 108, 100]]) 7).1.store
        (gsCloseW 4 (runWrites 4 [[104, 101, 108, 108, 111, 32, 119, 111, 114, 108, 100]]) 7).2.length =
      Except.ok [104, 101, 108, 108, 111, 32, 119, 111, 114, 108, 100] :=
  c1_write_read_round_trip 4 [[104, 101, 108, 108, 111, 32, 119, 111, 114, 108, 100]] 7
    (by decide) (by decide)

/-- C2 counterexample: a closed empty write session persists 0 chunks, not
max(1, ceil(0 / chunkSize)) = 1. -/
theorem c2_counterexample :
    (gsCloseW 1 (runWrites 1 [[]]) 0).1.store.length ≠
      max 1 (ceilDiv (gsCloseW 1 (runWrites 1 [[]]) 0).2.length 1) := by
  decide

/-- C2 amended: after close the number of persisted chunks equals
ceil(L / chunkSize) (so 0 for an empty payload, without the max(1, ...) floor
of the claim), every chunk except the last holds exactly chunkSize bytes, and
the chunk indices are exactly 0..k-1 with no gaps. -/
theorem c2_chunk_layout (cs : Nat) (ws : List (List Nat)) (t : Nat) (hcs : 1 ≤ cs) :
    (gsCloseW cs (runWrites cs ws) t).1.store.length = ceilDiv ws.flatten.length cs ∧
    (∀ c ∈ (gsCloseW cs (runWrites cs ws) t).1.store.dropLast, c.data.length = cs) ∧
    (gsCloseW cs (runWrites cs ws) t).1.store.map Chunk.n =
      List.range (gsCloseW cs (runWrites cs ws) t).1.store.length := by
  obtain ⟨hspec, _⟩ := closed_session_spec cs hcs ws t
  exact ⟨hspec.count, hspec.notLastFull, hspec.ns⟩

/-- Witness for the amended C2: 11 bytes at chunkSize 4 persist as 3 chunks
0,1,2 with the first two full. -/
theorem c2_witness :
    (gsCloseW 4 (runWrites 4 [[104, 101, 108, 108, 111, 32, 119, 111, 114, 108, 100]]) 7).1.store.length =
      ceilDiv [[104, 101, 108, 108, 111, 32, 119, 111, 114, 108, 100]].flatten.length 4 ∧
    (∀ c ∈ (gsCloseW 4 (runWrites 4 [[104, 101, 108, 108, 111, 32, 119, 111, 114, 108, 100]]) 7).1.store.dropLast,
      c.data.length = 4) ∧
    (gsCloseW 4 (runWrites 4 [[104, 101, 108, 108, 111, 32, 119, 111, 114, 108, 100]]) 7).1.store.map Chunk.n =
      List.range (gsCloseW 4 (runWrites 4 [[104, 101, 108, 108, 111, 32, 119, 111, 114, 108, 100]]) 7).1.store.length :=
  c2_chunk_layout 4 [[104, 101, 108, 108, 111, 32, 119, 111, 114, 108, 100]] 7 (by decide)

/-- C4 counterexample: a read needing 2 bytes from a file whose chunk 1 is
missing succeeds with the 1 byte already copied from chunk 0 instead of
failing with the corruption error: a result buffer is delivered. -/
theorem c4_counterexample :
    gsReadFull [⟨0, [7], 0⟩] 2 = Except.ok [7] := by
  simp [gsReadFull, gsRead, nthChunk, Chunk.readSlice]

/-- C4 amended: when the next expected chunk is missing while more bytes were
requested, the read fails with the corruption error only if nothing has been
copied into the result buffer yet (an empty chunk 0); otherwise the partially
filled buffer is delivered without error. -/
theorem c4_corruption_only_when_nothing_copied (d : List Nat) (L : Nat)
    (hd : d.length < L) :
    gsReadFull [⟨0, d, 0⟩] L =
      if d.length = 0 then Except.error "no chunks found for file, possibly corrupt"
      else Except.ok d := by
  unfold gsReadFull
  have h0 : nthChunk [(⟨0, d, 0⟩ : Chunk)] 0 = ⟨0, d, 0⟩ := rfl
  have h1 : nthChunk [(⟨0, d, 0⟩ : Chunk)] (0 + 1) = ⟨0, [], 0⟩ := rfl
  rw [h0]
  rw [gsRead_step_stop _ _ _ _
    (show ¬ L ≤ d.length - 0 + ([] : List Nat).length by
      simp only [List.length_nil, Nat.sub_zero]
      omega)
    (by rw [show (⟨0, d, 0⟩ : Chunk).n + 1 = 0 + 1 from rfl, h1]; simp)]
  show (if 0 < ([] ++ ((⟨0, d, 0⟩ : Chunk).readSlice (d.length - 0)).1).length then
      Except.ok ([] ++ ((⟨0, d, 0⟩ : Chunk).readSlice (d.length - 0)).1)
    else Except.error "no chunks found for file, possibly corrupt") = _
  rw [readSlice_all, List.nil_append]
  by_cases hz : d.length = 0
  · rw [if_neg (by omega), if_pos hz]
  · rw [if_pos (by omega), if_neg hz]

/-- Witness for the amended C4: a missing chunk with an empty chunk 0 errors,
a missing chunk after one copied byte delivers the partial buffer. -/
theorem c4_witness :
    gsReadFull [(⟨0, [], 0⟩ : Chunk)] 2 =
      Except.error "no chunks found for file, possibly corrupt" ∧
    gsReadFull [(⟨0, [7], 0⟩ : Chunk)] 3 = Except.ok [7] := by
  constructor
  · have h := c4_corruption_only_when_nothing_copied [] 2 (by decide)
    simpa using h
  · have h := c4_corruption_only_when_nothing_copied [7] 3 (by decide)
    simpa using h

/-- C7 counterexample: batchSize on a non-tailable cursor in the OPEN state
(data already flowing) succeeds instead of failing, unlike limit, skip and
sort. -/
theorem c7_counterexample :
    cursorBatchSize false CState.opened false ⟨none, none, none, none⟩ 5 =
      Except.ok ⟨none, none, some 5, none⟩ := by
  rfl

/-- C7 amended: all four mutators fail on a tailable cursor; limit, skip and
sort also fail once the cursor has left the initial state (OPEN, CLOSED or
dead); batchSize fails only when the cursor is CLOSED or dead and still
succeeds in the OPEN state. -/
theorem c7_mutators_guards (tl : Bool) (st : CState) (dead : Bool) (cmd : CursorCmd)
    (v : Int) :
    (tl = true →
      (∃ e, cursorLimit tl st dead cmd v = Except.error e) ∧
      (∃ e, cursorSkip tl st dead cmd v = Except.error e) ∧
      (∃ e, cursorBatchSize tl st dead cmd v = Except.error e) ∧
      (∃ e, cursorSort tl st dead cmd v = Except.error e)) ∧
    (tl = false → (st = CState.opened ∨ st = CState.closedState ∨ dead = true) →
      (∃ e, cursorLimit tl st dead cmd v = Except.error e) ∧
      (∃ e, cursorSkip tl st dead cmd v = Except.error e) ∧
      (∃ e, cursorSort tl st dead cmd v = Except.error e)) ∧
    (tl = false → (st = CState.closedState ∨ dead = true) →
      ∃ e, cursorBatchSize tl st dead cmd v = Except.error e) ∧
    (tl = false → st = CState.opened → dead = false →
      cursorBatchSize tl st dead cmd v = Except.ok { cmd with batchSize := some v }) := by
  refine ⟨?_, ?_, ?_, ?_⟩
  · intro h
    subst h
    refine ⟨⟨"Tailable cursor does not support limit", ?_⟩,
      ⟨"Tailable cursor does not support skip", ?_⟩,
      ⟨"Tailable cursor does not support limit", ?_⟩,
      ⟨"Tailable cursor does not support sorting", ?_⟩⟩ <;>
      simp [cursorLimit, cursorSkip, cursorBatchSize, cursorSort]
  · intro htl hst
    subst htl
    refine ⟨⟨"Cursor is closed", ?_⟩, ⟨"Cursor is closed", ?_⟩, ⟨"Cursor is closed", ?_⟩⟩
    · unfold cursorLimit
      rw [if_neg (by simp), if_pos hst]
    · unfold cursorSkip
      rw [if_neg (by simp), if_pos hst]
    · unfold cursorSort
      rw [if_neg (by simp), if_pos (by tauto)]
  · intro htl hst
    subst htl
    refine ⟨"Cursor is closed", ?_⟩
    unfold cursorBatchSize
    rw [if_neg (by simp), if_pos hst]
  · intro htl hst hdead
    subst htl
    subst hst
    subst hdead
    unfold cursorBatchSize
    rw [if_neg (by simp), if_neg (by simp)]

/-- Witness for the amended C7. -/
theorem c7_witness :
    (∃ e, cursorLimit true CState.init false ⟨none, none, none, none⟩ 3 = Except.error e) ∧
    (∃ e, cursorSort false CState.opened false ⟨none, none, none, none⟩ 3 = Except.error e) ∧
    cursorBatchSize false CState.opened false ⟨none, none, none, none⟩ 3 =
      Except.ok ⟨none, none, some 3, none⟩ :=
  ⟨((c7_mutators_guards true CState.init false ⟨none, none, none, none⟩ 3).1 rfl).1,
   ((c7_mutators_guards false CState.opened false ⟨none, none, none, none⟩ 3).2.1 rfl
      (Or.inl rfl)).2.2,
   (c7_mutators_guards false CState.opened false ⟨none, none, none, none⟩ 3).2.2.2 rfl rfl rfl⟩

theorem nextObjectLoop_exhaust : ∀ N : Nat, 1 ≤ N →
    nextObjectLoop (N - 1) (List.replicate N FetchR.tailableErr) =
      Except.error "tailable retry limit reached" := by
  intro N
  induction N with
  | zero => intro h; omega
  | succ n ih =>
    intro _
    rw [List.replicate_succ]
    show nextObjectLoop n (FetchR.tailableErr :: List.replicate n FetchR.tailableErr) = _
    by_cases hn : n = 0
    · subst hn
      rfl
    · rw [nextObjectLoop, if_neg hn]
      exact ih (by omega)

theorem nextObjectLoop_succeed (d : Nat) : ∀ N : Nat,
    nextObjectLoop N (List.replicate N FetchR.tailableErr ++ [FetchR.okDoc d]) =
      Except.ok (some d) := by
  intro N
  induction N with
  | zero => rfl
  | succ n ih =>
    rw [List.replicate_succ]
    show nextObjectLoop (n + 1)
        (FetchR.tailableErr :: (List.replicate n FetchR.tailableErr ++ [FetchR.okDoc d])) = _
    rw [nextObjectLoop, if_neg (by omega)]
    simpa using ih

/-- C8: a tailable nextObject call against N consecutive transient
tailable-retry errors surfaces the error when configured with N-1 retries and
succeeds on the next fetch when configured with N retries. -/
theorem c8_tailable_retry_count (N d : Nat) (hN : 1 ≤ N) :
    nextObjectLoop (N - 1) (List.replicate N FetchR.tailableErr) =
      Except.error "tailable retry limit reached" ∧
    nextObjectLoop N (List.replicate N FetchR.tailableErr ++ [FetchR.okDoc d]) =
      Except.ok (some d) :=
  ⟨nextObjectLoop_exhaust N hN, nextObjectLoop_succeed d N⟩

/-- Witness for C8 at N = 3. -/
theorem c8_witness :
    nextObjectLoop 2 (List.replicate 3 FetchR.tailableErr) =
      Except.error "tailable retry limit reached" ∧
    nextObjectLoop 3 (List.replicate 3 FetchR.tailableErr ++ [FetchR.okDoc 7]) =
      Except.ok (some 7) :=
  c8_tailable_retry_count 3 7 (by decide)

/-- C9: combining an acknowledgement level below 1 with fsync:true or a
journal flag makes the GridStore constructor fail with the write-concern
configuration error. -/
theorem c9_wc_config_error (db : DbLike) (opts : GSOptions) (w : Int)
    (hw : opts.wc.w = some w) (hlt : w < 1)
    (hflag : opts.wc.fsync = some true ∨ opts.wc.j = some true ∨
      opts.wc.journal = some true) :
    gridStoreNew db opts = Except.error
      "No acknowledgement using w < 1 cannot be combined with journal:true or fsync:true" := by
  have hlocal : hasLocalWC opts.wc = true := by
    unfold hasLocalWC
    rw [hw]
    simp
  have hres : resolveWC db opts = setWriteConcernHash opts.wc := by
    unfold resolveWC
    rw [if_pos hlocal]
  have hinvalid : wcInvalid (resolveWC db opts) = true := by
    rw [hres]
    unfold wcInvalid setWriteConcernHash
    rw [hw]
    simp only [decide_eq_true hlt, Bool.true_and]
    rcases hflag with h | h | h <;> simp [h]
  unfold gridStoreNew getWriteConcern
  rw [if_pos hinvalid]

/-- Witness for C9: options w:0 with fsync:true are rejected at construction
time. -/
theorem c9_witness :
    gridStoreNew ⟨⟨none, none, none, none, none⟩, SafeOpt.absent⟩
        ⟨⟨some 0, none, none, none, some true⟩, SafeOpt.absent⟩ = Except.error
      "No acknowledgement using w < 1 cannot be combined with journal:true or fsync:true" :=
  c9_wc_config_error ⟨⟨none, none, none, none, none⟩, SafeOpt.absent⟩
    ⟨⟨some 0, none, none, none, some true⟩, SafeOpt.absent⟩ 0 rfl (by decide) (Or.inl rfl)
